import Mathlib

/-!
Verification of the xmlp streaming XML parser (src/parser.ts).

The repository ships `src/parser.ts`, which imports the parse context and the
state-handler functions from `context.ts` and `handler.ts`; those two files are
not part of the available sources, so the context data model and the handler
bodies below are modelled from the specification (each such definition carries
a doc comment starting `Modelled from the spec:`).  Everything concerning the
driver loop, the chunk setter, position tracking, the handler table, the SAX
listener plumbing, the pull-style marshalling and the byte-writing entry point
is translated directly from `src/parser.ts`.
-/

namespace Xmlp

/-- Modelled from the spec: `Position {line ≥ 1, column ≥ 0}` (section 3);
`parser.ts` line 20 initialises it to `{line: 1, column: 0}`. -/
structure XMLPosition where
  line : Int
  column : Int
deriving DecidableEq, Repr

/-- Modelled from the spec: `XMLParseError {message, position}`, immutable once
raised (section 3; the class itself lives in the missing `context.ts`). -/
structure XMLParseError where
  message : String
  position : XMLPosition
deriving DecidableEq, Repr

/-- Modelled from the spec: one attribute of an `ElementInfo`
(`name→{value, prefix, localName, namespaceURI}`, section 3). -/
structure AttributeInfo where
  qName : String
  value : String
  pfx : Option String
  localName : String
  uri : Option String
deriving DecidableEq, Repr

/-- Modelled from the spec: `ElementInfo {name, prefix, localName,
namespaceURI, attributes}` (section 3). -/
structure ElementInfo where
  qName : String
  pfx : Option String
  localName : String
  uri : Option String
  attributes : List AttributeInfo
deriving DecidableEq, Repr

/-- Modelled from the spec: the `Event` tagged union of the 12 possible parse
notifications (section 3); the event names are the 12 strings accepted by
`SAXParser.on` (`parser.ts` lines 210-221). -/
inductive XMLParseEvent where
  | start_document
  | processing_instruction (text : String)
  | sgml_declaration (text : String)
  | text (content : String) (element : Option ElementInfo) (cdata : Bool)
  | doctype (text : String)
  | start_prefix_mapping (ns : String) (uri : String)
  | start_element (element : ElementInfo)
  | comment (text : String)
  | end_element (element : ElementInfo)
  | end_prefix_mapping (ns : String) (uri : String)
  | end_document
  | error (e : XMLParseError)
deriving DecidableEq, Repr

/-- Name of an event, i.e. `event[0]` of the array representation used in
`parser.ts` (`fireListeners`, line 128). -/
def XMLParseEvent.name : XMLParseEvent → String
  | .start_document => "start_document"
  | .processing_instruction _ => "processing_instruction"
  | .sgml_declaration _ => "sgml_declaration"
  | .text _ _ _ => "text"
  | .doctype _ => "doctype"
  | .start_prefix_mapping _ _ => "start_prefix_mapping"
  | .start_element _ => "start_element"
  | .comment _ => "comment"
  | .end_element _ => "end_element"
  | .end_prefix_mapping _ _ => "end_prefix_mapping"
  | .end_document => "end_document"
  | .error _ => "error"

/-- Recogniser for the driver-appended error notification. -/
def isErrorEvent : XMLParseEvent → Bool
  | .error _ => true
  | _ => false

/-- Modelled from the spec and the state table comment of `parser.ts`
(lines 26-51): the 24 named FSM states (`context.ts` is absent from src/). -/
inductive ParseState where
  | BEFORE_DOCUMENT
  | GENERAL_STUFF
  | FOUND_LT
  | PROC_INST
  | PROC_INST_ENDING
  | SGML_DECL
  | CDATA
  | CDATA_ENDING
  | CDATA_ENDING_2
  | COMMENT
  | COMMENT_ENDING
  | COMMENT_ENDING_2
  | DOCTYPE
  | START_TAG
  | START_TAG_STUFF
  | EMPTY_ELEMENT_TAG
  | ATTRIBUTE_NAME
  | ATTRIBUTE_NAME_SAW_WHITE
  | ATTRIBUTE_EQUAL
  | ATTRIBUTE_VALUE_START
  | ATTRIBUTE_VALUE_END
  | END_TAG
  | END_TAG_SAW_WHITE
  | AFTER_DOCUMENT
deriving DecidableEq, Repr, Fintype

/-- String key of a state, as used by the handler table of `ParserBase`
(`parser.ts` lines 53-78 register handlers under these exact strings). -/
def ParseState.name : ParseState → String
  | .BEFORE_DOCUMENT => "BEFORE_DOCUMENT"
  | .GENERAL_STUFF => "GENERAL_STUFF"
  | .FOUND_LT => "FOUND_LT"
  | .PROC_INST => "PROC_INST"
  | .PROC_INST_ENDING => "PROC_INST_ENDING"
  | .SGML_DECL => "SGML_DECL"
  | .CDATA => "CDATA"
  | .CDATA_ENDING => "CDATA_ENDING"
  | .CDATA_ENDING_2 => "CDATA_ENDING_2"
  | .COMMENT => "COMMENT"
  | .COMMENT_ENDING => "COMMENT_ENDING"
  | .COMMENT_ENDING_2 => "COMMENT_ENDING_2"
  | .DOCTYPE => "DOCTYPE"
  | .START_TAG => "START_TAG"
  | .START_TAG_STUFF => "START_TAG_STUFF"
  | .EMPTY_ELEMENT_TAG => "EMPTY_ELEMENT_TAG"
  | .ATTRIBUTE_NAME => "ATTRIBUTE_NAME"
  | .ATTRIBUTE_NAME_SAW_WHITE => "ATTRIBUTE_NAME_SAW_WHITE"
  | .ATTRIBUTE_EQUAL => "ATTRIBUTE_EQUAL"
  | .ATTRIBUTE_VALUE_START => "ATTRIBUTE_VALUE_START"
  | .ATTRIBUTE_VALUE_END => "ATTRIBUTE_VALUE_END"
  | .END_TAG => "END_TAG"
  | .END_TAG_SAW_WHITE => "END_TAG_SAW_WHITE"
  | .AFTER_DOCUMENT => "AFTER_DOCUMENT"

/-- Modelled from the spec: the `ParseContext` mutable state container
(section 3): FSM state, accumulation buffers, quote character, element stack,
namespace-scope stack, pending attributes, and the five flags. -/
structure XMLParseContext where
  state : ParseState := .BEFORE_DOCUMENT
  textBuf : String := ""
  nameBuf : String := ""
  valueBuf : String := ""
  tagName : String := ""
  attrName : String := ""
  quoteChar : Option Char := none
  elementStack : List ElementInfo := []
  namespaceList : List (List (String × String)) := []
  pendingAttributes : List (String × String) := []
  ltDepth : Nat := 0
  selfClosing : Bool := false
  inCData : Bool := false
  sawRoot : Bool := false
  closedRoot : Bool := false
  errored : Bool := false
deriving DecidableEq, Repr

/-- Signature of one state handler: it receives the context and (through the
`XMLLocator` the context holds) the already-updated position, consumes one
character and either produces a new context with zero or more events or raises
an `XMLParseError` (`XMLParseHandler` of the missing `context.ts`). -/
def XMLParseHandler :=
  XMLParseContext → XMLPosition → Char →
    Except XMLParseError (XMLParseContext × List XMLParseEvent)

/-! ## Character classes and entity decoding, modelled from the spec -/

/-- Whitespace characters recognised by the tokenizer. -/
def isWS (c : Char) : Bool :=
  c = ' ' || c = '\t' || c = '\n' || c = '\r'

/-- Characters that may start an XML name. -/
def isNameStart (c : Char) : Bool :=
  c.isAlpha || c = '_' || c = ':'

/-- Characters that may continue an XML name. -/
def isNameChar (c : Char) : Bool :=
  isNameStart c || c.isDigit || c = '-' || c = '.'

/-- Modelled from the spec: the five predefined XML entities (section 1). -/
def predefEntity (s : String) : Option String :=
  if s = "amp" then some "&"
  else if s = "lt" then some "<"
  else if s = "gt" then some ">"
  else if s = "apos" then some "'"
  else if s = "quot" then some "\""
  else none

/-- Value of one digit in the given base, if valid. -/
def digitVal (base : Nat) (c : Char) : Option Nat :=
  let n := c.toNat
  let v : Option Nat :=
    if 48 ≤ n ∧ n ≤ 57 then some (n - 48)
    else if 97 ≤ n ∧ n ≤ 122 then some (n - 87)
    else if 65 ≤ n ∧ n ≤ 90 then some (n - 55)
    else none
  v.bind (fun d => if d < base then some d else none)

/-- Parse a non-empty digit string in the given base. -/
def parseDigits (base : Nat) : List Char → Option Nat
  | [] => none
  | l => l.foldlM (fun acc c => (digitVal base c).map (fun d => acc * base + d)) 0

/-- Modelled from the spec: numeric character references `&#NN;` and `&#xHH;`
(section 1); an out-of-range code point is not a character. -/
def charRefValue : List Char → Option Char
  | 'x' :: rest =>
      match parseDigits 16 rest with
      | some n => if _h : n.isValidChar then some (Char.ofNat n) else none
      | none => none
  | rest =>
      match parseDigits 10 rest with
      | some n => if _h : n.isValidChar then some (Char.ofNat n) else none
      | none => none

/-- Replacement text of one entity body (the text between `&` and `;`). -/
def entityValue : List Char → Option String
  | '#' :: rest => (charRefValue rest).map (fun c => String.singleton c)
  | l => predefEntity (String.mk l)

/-- Modelled from the spec: entity decoding of character data; an unknown named
entity or an unterminated reference is a structural error (sections 4.2, 7).
The second argument accumulates the current entity body, reversed, once a `&`
has been seen. -/
def decodeEntitiesAux (pos : XMLPosition) : List Char → Option (List Char) →
    Except XMLParseError String
  | [], none => .ok ""
  | [], some _ => .error ⟨"unterminated entity", pos⟩
  | c :: rest, none =>
      if c = '&' then decodeEntitiesAux pos rest (some [])
      else (decodeEntitiesAux pos rest none).map (fun s => String.singleton c ++ s)
  | c :: rest, some acc =>
      if c = ';' then
        match entityValue acc.reverse with
        | some s => (decodeEntitiesAux pos rest none).map (fun t => s ++ t)
        | none => .error ⟨"unknown entity " ++ String.mk acc.reverse, pos⟩
      else decodeEntitiesAux pos rest (some (c :: acc))

/-- Entity-decode a whole buffer. -/
def decodeEntities (s : String) (pos : XMLPosition) : Except XMLParseError String :=
  decodeEntitiesAux pos s.toList none

/-! ## Tag completion, modelled from the spec (section 4.2) -/

/-- Split a qualified name at the first colon (cross-cutting rule of
section 4.2). -/
def splitQName (q : String) : Option String × String :=
  match q.splitOn ":" with
  | [] => (none, q)
  | [n] => (none, n)
  | p :: rest => (some p, String.intercalate ":" rest)

/-- Modelled from the spec: namespace lookup walks from innermost to outermost
scope (section 3). -/
def nsResolve : List (List (String × String)) → String → Option String
  | [], _ => none
  | scope :: rest, p =>
      match scope.find? (fun b => b.1 = p) with
      | some b => some b.2
      | none => nsResolve rest p

/-- Namespace bindings declared by the pending attributes of a start tag
(`xmlns="u"` binds the default prefix, `xmlns:p="u"` binds `p`). -/
def attrBindings (attrs : List (String × String)) : List (String × String) :=
  attrs.filterMap (fun a =>
    if a.1 = "xmlns" then some ("", a.2)
    else if a.1.startsWith "xmlns:" then some (a.1.drop 6, a.2)
    else none)

/-- Modelled from the spec: resolve one attribute against the namespace stack;
an unresolved prefix on an attribute is a structural error (section 4.2). -/
def resolveAttribute (stack : List (List (String × String))) (pos : XMLPosition)
    (a : String × String) : Except XMLParseError AttributeInfo :=
  if a.1 = "xmlns" || a.1.startsWith "xmlns:" then
    .ok { qName := a.1, value := a.2, pfx := none, localName := a.1, uri := none }
  else
    match splitQName a.1 with
    | (none, ln) =>
        .ok { qName := a.1, value := a.2, pfx := none, localName := ln, uri := none }
    | (some p, ln) =>
        match nsResolve stack p with
        | some u =>
            .ok { qName := a.1, value := a.2, pfx := some p, localName := ln, uri := some u }
        | none => .error ⟨"unresolved namespace prefix " ++ p, pos⟩

/-- Modelled from the spec: completing a start tag on `>` (section 4.2): push
the declared namespace scope, emit one `start_prefix_mapping` per binding, then
`start_element`; a self-closing tag additionally emits `end_element` and the
`end_prefix_mapping`s at once and is never pushed onto the element stack; the
root closing moves to `AFTER_DOCUMENT` and emits `end_document`. -/
def finishStartTag (cx : XMLParseContext) (pos : XMLPosition) (selfClose : Bool) :
    Except XMLParseError (XMLParseContext × List XMLParseEvent) :=
  let bindings := attrBindings cx.pendingAttributes
  let stack := bindings :: cx.namespaceList
  let pl := splitQName cx.tagName
  let uriR : Except XMLParseError (Option String) :=
    match pl.1 with
    | none => .ok (nsResolve stack "")
    | some p =>
        match nsResolve stack p with
        | some u => .ok (some u)
        | none => .error ⟨"unresolved namespace prefix " ++ p, pos⟩
  match uriR with
  | .error e => .error e
  | .ok uri =>
    match cx.pendingAttributes.mapM (resolveAttribute stack pos) with
    | .error e => .error e
    | .ok attrs =>
      let el : ElementInfo :=
        { qName := cx.tagName, pfx := pl.1, localName := pl.2, uri := uri,
          attributes := attrs }
      let startEvs :=
        bindings.map (fun b => XMLParseEvent.start_prefix_mapping b.1 b.2)
          ++ [XMLParseEvent.start_element el]
      if selfClose then
        let endEvs :=
          [XMLParseEvent.end_element el]
            ++ (bindings.reverse.map (fun b => XMLParseEvent.end_prefix_mapping b.1 b.2))
        if cx.elementStack.isEmpty then
          .ok ({ cx with
                  state := .AFTER_DOCUMENT, pendingAttributes := [],
                  tagName := "", nameBuf := "", selfClosing := false,
                  sawRoot := true, closedRoot := true },
               startEvs ++ endEvs ++ [XMLParseEvent.end_document])
        else
          .ok ({ cx with
                  state := .GENERAL_STUFF, pendingAttributes := [],
                  tagName := "", nameBuf := "", selfClosing := false,
                  sawRoot := true },
               startEvs ++ endEvs)
      else
        .ok ({ cx with
                state := .GENERAL_STUFF, elementStack := el :: cx.elementStack,
                namespaceList := bindings :: cx.namespaceList,
                pendingAttributes := [], tagName := "", nameBuf := "",
                selfClosing := false, sawRoot := true },
             startEvs)

/-- Modelled from the spec: completing an end tag on `>` (section 4.2): pop the
element stack, verify the qualified-name match, emit `end_element` and the
`end_prefix_mapping`s of the scopes owned by that element; mismatch is a
structural error; closing the root emits `end_document` and moves to
`AFTER_DOCUMENT`. -/
def finishEndTag (cx : XMLParseContext) (pos : XMLPosition) :
    Except XMLParseError (XMLParseContext × List XMLParseEvent) :=
  match cx.elementStack with
  | [] => .error ⟨"unmatched end tag " ++ cx.nameBuf, pos⟩
  | el :: stackRest =>
    if el.qName = cx.nameBuf then
      let bindings := (cx.namespaceList.head?).getD []
      let endMaps :=
        bindings.reverse.map (fun b => XMLParseEvent.end_prefix_mapping b.1 b.2)
      let evs := [XMLParseEvent.end_element el] ++ endMaps
      if stackRest.isEmpty then
        .ok ({ cx with
                state := .AFTER_DOCUMENT, elementStack := [],
                namespaceList := cx.namespaceList.tail, nameBuf := "",
                closedRoot := true },
             evs ++ [XMLParseEvent.end_document])
      else
        .ok ({ cx with
                state := .GENERAL_STUFF, elementStack := stackRest,
                namespaceList := cx.namespaceList.tail, nameBuf := "" }, evs)
    else .error ⟨"mismatched end tag " ++ cx.nameBuf, pos⟩

/-- Flush accumulated character data as one entity-decoded `text` event
(nothing is emitted for an empty buffer). -/
def flushText (cx : XMLParseContext) (pos : XMLPosition) :
    Except XMLParseError (XMLParseContext × List XMLParseEvent) :=
  if cx.textBuf = "" then .ok (cx, [])
  else
    match decodeEntities cx.textBuf pos with
    | .error e => .error e
    | .ok t =>
        .ok ({ cx with textBuf := "" },
             [XMLParseEvent.text t cx.elementStack.head? false])

/-! ## The 24 state handlers, modelled from the spec (section 4.2)

The bodies live in the missing `handler.ts`; each is modelled from the role
table of section 4.2 and the state comment of `parser.ts` (lines 26-51).
Every handler first applies `deadGuard`: the spec states that once `errored`
is set the Context is dead and produces no further events (section 3). -/

/-- Modelled from the spec: once `errored` is set, no further events are
produced by that Context; it is dead (section 3, section 4.3). -/
def deadGuard (f : XMLParseHandler) : XMLParseHandler :=
  fun cx pos c => if cx.errored then .ok (cx, []) else f cx pos c

/-- Modelled from the spec: skip leading whitespace; the first `<` emits
`start_document` and enters the markup path. -/
def handleBeforeDocument : XMLParseHandler := deadGuard fun cx pos c =>
  if c = '<' then .ok ({ cx with state := .FOUND_LT }, [XMLParseEvent.start_document])
  else if isWS c then .ok (cx, [])
  else .error ⟨"non-whitespace before document", pos⟩

/-- Modelled from the spec: top-level text accumulation; `<` flushes the text
buffer and triggers `FOUND_LT`. -/
def handleGeneralStuff : XMLParseHandler := deadGuard fun cx pos c =>
  if c = '<' then
    match flushText cx pos with
    | .error e => .error e
    | .ok (cx', evs) => .ok ({ cx' with state := .FOUND_LT }, evs)
  else .ok ({ cx with textBuf := cx.textBuf.push c }, [])

/-- Modelled from the spec: disambiguate `<?`, `<!`, `</` and a plain start
tag. -/
def handleFoundLT : XMLParseHandler := deadGuard fun cx pos c =>
  if c = '?' then .ok ({ cx with state := .PROC_INST, textBuf := "" }, [])
  else if c = '!' then .ok ({ cx with state := .SGML_DECL, textBuf := "" }, [])
  else if c = '/' then .ok ({ cx with state := .END_TAG, nameBuf := "" }, [])
  else if isNameStart c then
    .ok ({ cx with
            state := .START_TAG, tagName := String.singleton c,
            pendingAttributes := [] }, [])
  else .error ⟨"unencoded <", pos⟩

/-- Modelled from the spec: accumulate the processing-instruction body until
`?`. -/
def handleProcInst : XMLParseHandler := deadGuard fun cx _ c =>
  if c = '?' then .ok ({ cx with state := .PROC_INST_ENDING }, [])
  else .ok ({ cx with textBuf := cx.textBuf.push c }, [])

/-- Modelled from the spec: `?>` ends the processing instruction and emits
`processing_instruction`; otherwise the `?` was literal. -/
def handleProcInstEnding : XMLParseHandler := deadGuard fun cx _ c =>
  if c = '>' then
    .ok ({ cx with state := .GENERAL_STUFF, textBuf := "" },
         [XMLParseEvent.processing_instruction cx.textBuf])
  else .ok ({ cx with state := .PROC_INST, textBuf := (cx.textBuf.push '?').push c }, [])

/-- Modelled from the spec: disambiguate `<!--`, `<![CDATA[` and `<!DOCTYPE`;
any other declaration body is emitted as `sgml_declaration` on `>`. -/
def handleSgmlDecl : XMLParseHandler := deadGuard fun cx _ c =>
  let nb := cx.textBuf.push c
  if nb = "--" then .ok ({ cx with state := .COMMENT, textBuf := "" }, [])
  else if nb = "[CDATA[" then
    .ok ({ cx with state := .CDATA, textBuf := "", inCData := true }, [])
  else if nb.toUpper = "DOCTYPE" then
    .ok ({ cx with state := .DOCTYPE, textBuf := nb, ltDepth := 0 }, [])
  else if c = '>' then
    .ok ({ cx with state := .GENERAL_STUFF, textBuf := "" },
         [XMLParseEvent.sgml_declaration cx.textBuf])
  else .ok ({ cx with textBuf := nb }, [])

/-- Modelled from the spec: accumulate CDATA verbatim; `]` may begin the
terminator. -/
def handleCdata : XMLParseHandler := deadGuard fun cx _ c =>
  if c = ']' then .ok ({ cx with state := .CDATA_ENDING }, [])
  else .ok ({ cx with textBuf := cx.textBuf.push c }, [])

/-- Modelled from the spec: a second `]` advances the CDATA terminator,
anything else was literal. -/
def handleCdataEnding : XMLParseHandler := deadGuard fun cx _ c =>
  if c = ']' then .ok ({ cx with state := .CDATA_ENDING_2 }, [])
  else .ok ({ cx with state := .CDATA, textBuf := (cx.textBuf.push ']').push c }, [])

/-- Modelled from the spec: `]]>` ends the section and emits the verbatim
`text` event with `isCData = true`; further `]` stays in this state. -/
def handleCdataEnding2 : XMLParseHandler := deadGuard fun cx _ c =>
  if c = '>' then
    .ok ({ cx with state := .GENERAL_STUFF, textBuf := "", inCData := false },
         [XMLParseEvent.text cx.textBuf cx.elementStack.head? true])
  else if c = ']' then .ok ({ cx with textBuf := cx.textBuf.push ']' }, [])
  else
    .ok ({ cx with
            state := .CDATA,
            textBuf := ((cx.textBuf.push ']').push ']').push c }, [])

/-- Modelled from the spec: accumulate the comment verbatim; `-` may begin the
terminator. -/
def handleComment : XMLParseHandler := deadGuard fun cx _ c =>
  if c = '-' then .ok ({ cx with state := .COMMENT_ENDING }, [])
  else .ok ({ cx with textBuf := cx.textBuf.push c }, [])

/-- Modelled from the spec: a second `-` advances the comment terminator,
anything else was literal. -/
def handleCommentEnding : XMLParseHandler := deadGuard fun cx _ c =>
  if c = '-' then .ok ({ cx with state := .COMMENT_ENDING_2 }, [])
  else .ok ({ cx with state := .COMMENT, textBuf := (cx.textBuf.push '-').push c }, [])

/-- Modelled from the spec: `-->` ends the comment and emits `comment`. -/
def handleCommentEnding2 : XMLParseHandler := deadGuard fun cx _ c =>
  if c = '>' then
    .ok ({ cx with state := .GENERAL_STUFF, textBuf := "" },
         [XMLParseEvent.comment cx.textBuf])
  else
    .ok ({ cx with
            state := .COMMENT,
            textBuf := ((cx.textBuf.push '-').push '-').push c }, [])

/-- Modelled from the spec: accumulate the doctype until the matching
top-level `>` (nested `<`/`>` inside the internal subset tolerated), then emit
`doctype`. -/
def handleDoctype : XMLParseHandler := deadGuard fun cx _ c =>
  if c = '<' then
    .ok ({ cx with textBuf := cx.textBuf.push c, ltDepth := cx.ltDepth + 1 }, [])
  else if c = '>' then
    if cx.ltDepth = 0 then
      .ok ({ cx with state := .GENERAL_STUFF, textBuf := "" },
           [XMLParseEvent.doctype cx.textBuf])
    else .ok ({ cx with textBuf := cx.textBuf.push c, ltDepth := cx.ltDepth - 1 }, [])
  else .ok ({ cx with textBuf := cx.textBuf.push c }, [])

/-- Modelled from the spec: accumulate the tag name; whitespace moves to
attribute scanning, `/` marks self-closing, `>` completes the tag. -/
def handleStartTag : XMLParseHandler := deadGuard fun cx pos c =>
  if c = '>' then finishStartTag cx pos false
  else if c = '/' then .ok ({ cx with state := .EMPTY_ELEMENT_TAG, selfClosing := true }, [])
  else if isWS c then .ok ({ cx with state := .START_TAG_STUFF }, [])
  else if isNameChar c then .ok ({ cx with tagName := cx.tagName.push c }, [])
  else .error ⟨"illegal character in tag name", pos⟩

/-- Modelled from the spec: between attributes inside a start tag. -/
def handleStartTagStuff : XMLParseHandler := deadGuard fun cx pos c =>
  if isWS c then .ok (cx, [])
  else if c = '>' then finishStartTag cx pos false
  else if c = '/' then .ok ({ cx with state := .EMPTY_ELEMENT_TAG, selfClosing := true }, [])
  else if isNameStart c then
    .ok ({ cx with state := .ATTRIBUTE_NAME, nameBuf := String.singleton c }, [])
  else .error ⟨"illegal attribute name", pos⟩

/-- Modelled from the spec: `/` immediately before `>` marks self-closing. -/
def handleEmptyElementTag : XMLParseHandler := deadGuard fun cx pos c =>
  if c = '>' then finishStartTag cx pos true
  else .error ⟨"forward-slash in start tag not followed by >", pos⟩

/-- Modelled from the spec: accumulate the attribute name until `=` or
whitespace. -/
def handleAttributeName : XMLParseHandler := deadGuard fun cx pos c =>
  if c = '=' then
    .ok ({ cx with state := .ATTRIBUTE_EQUAL, attrName := cx.nameBuf, nameBuf := "" }, [])
  else if isWS c then .ok ({ cx with state := .ATTRIBUTE_NAME_SAW_WHITE }, [])
  else if isNameChar c then .ok ({ cx with nameBuf := cx.nameBuf.push c }, [])
  else .error ⟨"illegal character in attribute name", pos⟩

/-- Modelled from the spec: after whitespace inside an attribute name only `=`
may follow. -/
def handleAttributeNameSawWhite : XMLParseHandler := deadGuard fun cx pos c =>
  if c = '=' then
    .ok ({ cx with state := .ATTRIBUTE_EQUAL, attrName := cx.nameBuf, nameBuf := "" }, [])
  else if isWS c then .ok (cx, [])
  else .error ⟨"attribute without value", pos⟩

/-- Modelled from the spec: after `=`, the first quote character fixes
`quoteChar`; an unquoted value is a structural error. -/
def handleAttributeEqual : XMLParseHandler := deadGuard fun cx pos c =>
  if isWS c then .ok (cx, [])
  else if c = '"' || c = '\'' then
    .ok ({ cx with state := .ATTRIBUTE_VALUE_START, quoteChar := some c, valueBuf := "" }, [])
  else .error ⟨"unquoted attribute value", pos⟩

/-- Modelled from the spec: accumulate the value until the matching quote;
the value is entity-decoded and stored into `pendingAttributes`; a duplicate
attribute name on the same tag is a structural error. -/
def handleAttributeValueStart : XMLParseHandler := deadGuard fun cx pos c =>
  if some c = cx.quoteChar then
    match decodeEntities cx.valueBuf pos with
    | .error e => .error e
    | .ok v =>
        if cx.pendingAttributes.any (fun a => a.1 = cx.attrName) then
          .error ⟨"duplicate attribute " ++ cx.attrName, pos⟩
        else
          .ok ({ cx with
                  state := .ATTRIBUTE_VALUE_END,
                  pendingAttributes := cx.pendingAttributes ++ [(cx.attrName, v)],
                  valueBuf := "", attrName := "", quoteChar := none }, [])
  else .ok ({ cx with valueBuf := cx.valueBuf.push c }, [])

/-- Modelled from the spec: directly after a closing quote only whitespace,
`/` or `>` may follow. -/
def handleAttributeValueEnd : XMLParseHandler := deadGuard fun cx pos c =>
  if isWS c then .ok ({ cx with state := .START_TAG_STUFF }, [])
  else if c = '/' then .ok ({ cx with state := .EMPTY_ELEMENT_TAG, selfClosing := true }, [])
  else if c = '>' then finishStartTag cx pos false
  else .error ⟨"no whitespace between attributes", pos⟩

/-- Modelled from the spec: accumulate the end-tag name; `>` completes the end
tag. -/
def handleEndTag : XMLParseHandler := deadGuard fun cx pos c =>
  if c = '>' then finishEndTag cx pos
  else if isWS c then .ok ({ cx with state := .END_TAG_SAW_WHITE }, [])
  else if isNameChar c then .ok ({ cx with nameBuf := cx.nameBuf.push c }, [])
  else .error ⟨"illegal character in end tag", pos⟩

/-- Modelled from the spec: after whitespace inside an end tag only `>` may
follow. -/
def handleEndTagSawWhite : XMLParseHandler := deadGuard fun cx pos c =>
  if c = '>' then finishEndTag cx pos
  else if isWS c then .ok (cx, [])
  else .error ⟨"illegal end tag", pos⟩

/-- Modelled from the spec: after the root has closed only trailing whitespace
is tolerated; any other content is a structural error. -/
def handleAfterDocument : XMLParseHandler := deadGuard fun cx pos c =>
  if isWS c then .ok (cx, [])
  else .error ⟨"non-whitespace after document", pos⟩

/-! ## The handler table and the driver, from `src/parser.ts` -/

/-- Assignment into a string-keyed dictionary (`this._handlers[state] =
handler` and `this._listeners[event] = list` in `parser.ts`): replace the
entry of an existing key, otherwise append a new entry. -/
def setAssoc {α : Type} : List (String × α) → String → α → List (String × α)
  | [], k, v => [(k, v)]
  | e :: rest, k, v => if e.1 = k then (k, v) :: rest else e :: setAssoc rest k v

/-- Lookup in a string-keyed dictionary (`this._handlers[state]`,
`parser.ts` line 139). -/
def getAssoc {α : Type} (m : List (String × α)) (k : String) : Option α :=
  (m.find? (fun e => e.1 = k)).map (fun e => e.2)

/-- The handler table built by the `ParserBase` constructor: the 24
`appendHandler` registrations of `parser.ts` lines 54-77, in order. -/
def defaultHandlers : List (String × XMLParseHandler) :=
  let t := setAssoc [] "BEFORE_DOCUMENT" handleBeforeDocument
  let t := setAssoc t "GENERAL_STUFF" handleGeneralStuff
  let t := setAssoc t "FOUND_LT" handleFoundLT
  let t := setAssoc t "PROC_INST" handleProcInst
  let t := setAssoc t "PROC_INST_ENDING" handleProcInstEnding
  let t := setAssoc t "SGML_DECL" handleSgmlDecl
  let t := setAssoc t "CDATA" handleCdata
  let t := setAssoc t "CDATA_ENDING" handleCdataEnding
  let t := setAssoc t "CDATA_ENDING_2" handleCdataEnding2
  let t := setAssoc t "COMMENT" handleComment
  let t := setAssoc t "COMMENT_ENDING" handleCommentEnding
  let t := setAssoc t "COMMENT_ENDING_2" handleCommentEnding2
  let t := setAssoc t "DOCTYPE" handleDoctype
  let t := setAssoc t "START_TAG" handleStartTag
  let t := setAssoc t "START_TAG_STUFF" handleStartTagStuff
  let t := setAssoc t "EMPTY_ELEMENT_TAG" handleEmptyElementTag
  let t := setAssoc t "ATTRIBUTE_NAME" handleAttributeName
  let t := setAssoc t "ATTRIBUTE_NAME_SAW_WHITE" handleAttributeNameSawWhite
  let t := setAssoc t "ATTRIBUTE_EQUAL" handleAttributeEqual
  let t := setAssoc t "ATTRIBUTE_VALUE_START" handleAttributeValueStart
  let t := setAssoc t "ATTRIBUTE_VALUE_END" handleAttributeValueEnd
  let t := setAssoc t "END_TAG" handleEndTag
  let t := setAssoc t "END_TAG_SAW_WHITE" handleEndTagSawWhite
  let t := setAssoc t "AFTER_DOCUMENT" handleAfterDocument
  t

/-- Total view of the default handler table: the handler the table stores for
each state. -/
def handlerFor : ParseState → XMLParseHandler
  | .BEFORE_DOCUMENT => handleBeforeDocument
  | .GENERAL_STUFF => handleGeneralStuff
  | .FOUND_LT => handleFoundLT
  | .PROC_INST => handleProcInst
  | .PROC_INST_ENDING => handleProcInstEnding
  | .SGML_DECL => handleSgmlDecl
  | .CDATA => handleCdata
  | .CDATA_ENDING => handleCdataEnding
  | .CDATA_ENDING_2 => handleCdataEnding2
  | .COMMENT => handleComment
  | .COMMENT_ENDING => handleCommentEnding
  | .COMMENT_ENDING_2 => handleCommentEnding2
  | .DOCTYPE => handleDoctype
  | .START_TAG => handleStartTag
  | .START_TAG_STUFF => handleStartTagStuff
  | .EMPTY_ELEMENT_TAG => handleEmptyElementTag
  | .ATTRIBUTE_NAME => handleAttributeName
  | .ATTRIBUTE_NAME_SAW_WHITE => handleAttributeNameSawWhite
  | .ATTRIBUTE_EQUAL => handleAttributeEqual
  | .ATTRIBUTE_VALUE_START => handleAttributeValueStart
  | .ATTRIBUTE_VALUE_END => handleAttributeValueEnd
  | .END_TAG => handleEndTag
  | .END_TAG_SAW_WHITE => handleEndTagSawWhite
  | .AFTER_DOCUMENT => handleAfterDocument

/-- Position update of `ParserBase.readNext` (`parser.ts` lines 105-110): a
newline increments `line` and resets `column` to 0, any other character
increments `column`. -/
def nextPosition (pos : XMLPosition) (c : Char) : XMLPosition :=
  if c = '\n' then { line := pos.line + 1, column := 0 }
  else { line := pos.line, column := pos.column + 1 }

/-- How a run of the driver loop ended: the chunk was exhausted, an
`XMLParseError` was caught (`parser.ts` lines 148-151), or a non-parse
exception propagated to the caller (lines 141 and 153). -/
inductive RunOutcome where
  | done
  | caught (e : XMLParseError)
  | thrown (msg : String)
deriving DecidableEq, Repr

/-- Result of running the driver loop over a list of characters: the events
the handlers produced (in emission order, without the error notification the
`catch` branch appends), the final context and position, the unconsumed
characters, and how the loop ended. -/
structure RunResult where
  events : List XMLParseEvent
  cx : XMLParseContext
  pos : XMLPosition
  rest : List Char
  outcome : RunOutcome
deriving DecidableEq, Repr

/-- The driver loop of `SAXParser.run` (`parser.ts` lines 135-156) over the
remaining characters of the chunk: while characters remain, look up the
handler for the current state (a missing handler throws a plain `Error`,
line 141), consume the next character via `readNext` (which updates the
position first), and dispatch it; an `XMLParseError` raised by a handler ends
the loop and (modelled from the spec, section 4.3) marks the context dead. -/
def runChars (tbl : List (String × XMLParseHandler)) :
    XMLParseContext → XMLPosition → List Char → RunResult
  | cx, pos, [] => ⟨[], cx, pos, [], .done⟩
  | cx, pos, c :: rest =>
    match getAssoc tbl cx.state.name with
    | none =>
        ⟨[], cx, pos, c :: rest,
         .thrown ("Handler for " ++ cx.state.name ++ " not found")⟩
    | some h =>
      let pos' := nextPosition pos c
      match h cx pos' c with
      | .error e => ⟨[], { cx with errored := true }, pos', rest, .caught e⟩
      | .ok (cx', evs) =>
        let r := runChars tbl cx' pos' rest
        ⟨evs ++ r.events, r.cx, r.pos, r.rest, r.outcome⟩

/-- Events the `SAXParser` dispatches for one run: the handler events, and —
when an `XMLParseError` was caught — exactly one `error` event appended by the
`catch` branch (`parser.ts` line 150). -/
def saxEventsOf (r : RunResult) : List XMLParseEvent :=
  match r.outcome with
  | .caught e => r.events ++ [XMLParseEvent.error e]
  | _ => r.events

/-- Events dispatched by one `SAXParser.run` over the given characters. -/
def saxEvents (tbl : List (String × XMLParseHandler)) (cx : XMLParseContext)
    (pos : XMLPosition) (l : List Char) : List XMLParseEvent :=
  saxEventsOf (runChars tbl cx pos l)

/-! ## The `ParserBase` cursor state, from `src/parser.ts` lines 15-117 -/

/-- The private mutable fields of `ParserBase`: the context, the current
chunk, the chunk-local cursor (initially `-1`) and the position (initially
`{line: 1, column: 0}`). -/
structure ParserBase where
  cx : XMLParseContext := {}
  chunk : List Char := []
  index : Int := -1
  position : XMLPosition := { line := 1, column := 0 }
deriving DecidableEq, Repr

/-- The `chunk` setter (`parser.ts` lines 93-96): store the new chunk and
reset the cursor to `-1`. -/
def ParserBase.setChunk (s : ParserBase) (ch : List Char) : ParserBase :=
  { s with chunk := ch, index := -1 }

/-- `ParserBase.hasNext` (`parser.ts` lines 98-100). -/
def ParserBase.hasNext (s : ParserBase) : Bool :=
  s.index < (s.chunk.length : Int) - 1

/-- `ParserBase.readNext` (`parser.ts` lines 102-112): advance the cursor,
read the character there (out of range yields `none`, like the `undefined` of
a string index), and update the position — a newline increments the line and
resets the column, anything else (also `undefined`) increments the column. -/
def ParserBase.readNext (s : ParserBase) : Option Char × ParserBase :=
  let i := s.index + 1
  let c := s.chunk.get? i.toNat
  let pos' :=
    match c with
    | some ch => nextPosition s.position ch
    | none => { line := s.position.line, column := s.position.column + 1 }
  (c, { s with index := i, position := pos' })

/-- The characters of the current chunk the cursor has not consumed yet. -/
def ParserBase.remaining (s : ParserBase) : List Char :=
  s.chunk.drop (s.index + 1).toNat

/-- One call of `SAXParser.run` on a `ParserBase`: the driver loop runs over
the remaining characters; the dispatched events (error notification included),
the final parser state and the outcome are returned. -/
def runP (tbl : List (String × XMLParseHandler)) (s : ParserBase) :
    List XMLParseEvent × ParserBase × RunOutcome :=
  let r := runChars tbl s.cx s.position s.remaining
  (saxEventsOf r,
   { cx := r.cx, chunk := s.chunk,
     index := s.index + ((s.remaining.length - r.rest.length : Nat) : Int),
     position := r.pos },
   r.outcome)

/-- Feeding a sequence of chunks: each chunk is assigned via the `chunk`
setter and the driver loop runs to exhaustion before the next chunk is
assigned (`SAXParser.write`, `parser.ts` lines 163-172); a propagated
non-parse exception aborts the sequence and is reported in the last
component. -/
def feedChunksP (tbl : List (String × XMLParseHandler)) :
    ParserBase → List (List Char) → List XMLParseEvent × ParserBase × Option String
  | s, [] => ([], s, none)
  | s, ch :: rest =>
    match runP tbl (s.setChunk ch) with
    | (evs, s', .thrown m) => (evs, s', some m)
    | (evs, s', _) =>
      let (evs2, s'', th) := feedChunksP tbl s' rest
      (evs ++ evs2, s'', th)

/-! ## The SAX push consumer, from `src/parser.ts` lines 122-229 -/

/-- Listener lists of one event name (`this._listeners[name] || []`,
`parser.ts` line 129): listeners are opaque values of a type `L`. -/
def getListeners {L : Type} (m : List (String × List L)) (name : String) : List L :=
  (getAssoc m name).getD []

/-- `SAXParser.on` (`parser.ts` lines 223-228): append the listener to the
list registered for the event name. -/
def saxOn {L : Type} (m : List (String × List L)) (name : String) (l : L) :
    List (String × List L) :=
  setAssoc m name (getListeners m name ++ [l])

/-- `SAXParser.fireListeners` (`parser.ts` lines 127-133): invoke every
listener registered for the event's name, in list order, passing the event
payload; the result is the trace of those synchronous invocations. -/
def fireListeners {L : Type} (m : List (String × List L)) (ev : XMLParseEvent) :
    List (L × XMLParseEvent) :=
  (getListeners m ev.name).map (fun l => (l, ev))

/-- The driver loop fused with listener dispatch, exactly as `SAXParser.run`
executes it: every event a handler produces is dispatched synchronously,
in emission order, before the next character is consumed; a caught
`XMLParseError` is dispatched as one `error` event. -/
def runDispatch {L : Type} (tbl : List (String × XMLParseHandler))
    (m : List (String × List L)) :
    XMLParseContext → XMLPosition → List Char → List (L × XMLParseEvent) × RunOutcome
  | _, _, [] => ([], .done)
  | cx, pos, c :: rest =>
    match getAssoc tbl cx.state.name with
    | none => ([], .thrown ("Handler for " ++ cx.state.name ++ " not found"))
    | some h =>
      let pos' := nextPosition pos c
      match h cx pos' c with
      | .error e => (fireListeners m (XMLParseEvent.error e), .caught e)
      | .ok (cx', evs) =>
        let (tr, o) := runDispatch tbl m cx' pos' rest
        (evs.flatMap (fireListeners m) ++ tr, o)

/-! ## Byte decoding of `SAXParser.write`, from `src/parser.ts` lines 163-172

`write` constructs a fresh `TextDecoder` on every call and decodes the byte
chunk with it before assigning the result via the chunk setter.  The decoder
itself is a platform collaborator outside this repository; it is modelled
from the WHATWG encoding standard's UTF-8 decoder: malformed or incomplete
sequences become U+FFFD replacement characters and one leading byte-order
mark is removed. -/

/-- The U+FFFD replacement character. -/
def replChar : Char := Char.ofNat 0xFFFD

/-- Modelled from the spec: the running state of the WHATWG UTF-8 decoder —
outstanding continuation bytes, code point accumulated so far, and the bounds
on the next byte. -/
structure Utf8State where
  needed : Nat
  acc : Nat
  lower : Nat
  upper : Nat

/-- Modelled from the spec: the WHATWG UTF-8 decoder's handling of a byte in
the initial state: ASCII passes through, lead bytes open a sequence, anything
else becomes U+FFFD. -/
def utf8Begin (b : Nat) : List Char × Utf8State :=
  if b < 0x80 then ([Char.ofNat b], ⟨0, 0, 0x80, 0xBF⟩)
  else if 0xC2 ≤ b && b ≤ 0xDF then ([], ⟨1, b - 0xC0, 0x80, 0xBF⟩)
  else if 0xE0 ≤ b && b ≤ 0xEF then
    ([], ⟨2, b - 0xE0, if b = 0xE0 then 0xA0 else 0x80,
      if b = 0xED then 0x9F else 0xBF⟩)
  else if 0xF0 ≤ b && b ≤ 0xF4 then
    ([], ⟨3, b - 0xF0, if b = 0xF0 then 0x90 else 0x80,
      if b = 0xF4 then 0x8F else 0xBF⟩)
  else ([replChar], ⟨0, 0, 0x80, 0xBF⟩)

/-- Modelled from the spec: one byte of WHATWG UTF-8 decoding; an invalid
continuation byte emits U+FFFD and is reprocessed as a starting byte. -/
def utf8Step (st : Utf8State) (b : Nat) : List Char × Utf8State :=
  match st.needed with
  | 0 => utf8Begin b
  | needed + 1 =>
    if st.lower ≤ b && b ≤ st.upper then
      let acc' := st.acc * 64 + (b - 0x80)
      if needed = 0 then ([Char.ofNat acc'], ⟨0, 0, 0x80, 0xBF⟩)
      else ([], ⟨needed, acc', 0x80, 0xBF⟩)
    else
      let r := utf8Begin b
      (replChar :: r.1, r.2)

/-- Modelled from the spec: the WHATWG UTF-8 decoder over a byte sequence; a
truncated trailing sequence becomes one U+FFFD. -/
def utf8Fold (st : Utf8State) : List Nat → List Char
  | [] => if st.needed = 0 then [] else [replChar]
  | b :: bs =>
    let r := utf8Step st b
    r.1 ++ utf8Fold r.2 bs

/-- One `TextDecoder().decode(chunk)` call: UTF-8 decode the bytes and remove
one leading byte-order mark (`parser.ts` line 166-167, "TextDecoder can
resolve BOM"). -/
def decodeChunk (bytes : List Nat) : List Char :=
  match utf8Fold ⟨0, 0, 0, 0⟩ bytes with
  | c :: rest => if c = Char.ofNat 0xFEFF then rest else c :: rest
  | [] => []

/-- `SAXParser.write` (`parser.ts` lines 163-172): decode the byte chunk with
a freshly constructed decoder, assign it via the chunk setter, and run the
driver loop. -/
def saxWrite (tbl : List (String × XMLParseHandler)) (s : ParserBase)
    (bytes : List Nat) : List XMLParseEvent × ParserBase × RunOutcome :=
  runP tbl (s.setChunk (decodeChunk bytes))

/-- Repeated `SAXParser.write` calls, one byte chunk each. -/
def feedWrites (tbl : List (String × XMLParseHandler)) :
    ParserBase → List (List Nat) → List XMLParseEvent × ParserBase × Option String
  | s, [] => ([], s, none)
  | s, bytes :: rest =>
    match saxWrite tbl s bytes with
    | (evs, s', .thrown m) => (evs, s', some m)
    | (evs, s', _) =>
      let (evs2, s'', th) := feedWrites tbl s' rest
      (evs ++ evs2, s'', th)

/-! ## The pull consumer, from `src/parser.ts` lines 234-306 -/

/-- `PullResult` (`parser.ts` lines 234-249): an event name plus the optional
variant-specific payload fields. -/
structure PullResult where
  name : String
  procInst : Option String := none
  sgmlDecl : Option String := none
  text : Option String := none
  element : Option ElementInfo := none
  cdata : Option Bool := none
  doctype : Option String := none
  ns : Option String := none
  uri : Option String := none
  comment : Option String := none
  error : Option XMLParseError := none
deriving DecidableEq, Repr

/-- `PullParser.marshallEvent` (`parser.ts` lines 255-277): build a
`PullResult` from an event, copying the payload positions the if-chain reads;
note that the chain has no branch for `error`, so an error event marshals to a
bare `{name}`. -/
def marshallEvent (ev : XMLParseEvent) : PullResult :=
  match ev with
  | .processing_instruction t => { name := ev.name, procInst := some t }
  | .sgml_declaration t => { name := ev.name, sgmlDecl := some t }
  | .text t el cd => { name := ev.name, text := some t, element := el, cdata := some cd }
  | .doctype t => { name := ev.name, doctype := some t }
  | .start_prefix_mapping n u => { name := ev.name, ns := some n, uri := some u }
  | .end_prefix_mapping n u => { name := ev.name, ns := some n, uri := some u }
  | .start_element el => { name := ev.name, element := some el }
  | .end_element el => { name := ev.name, element := some el }
  | .comment t => { name := ev.name, comment := some t }
  | _ => { name := ev.name }

/-- The result `PullParser.parse` yields from its `catch` branch
(`parser.ts` line 300): `{name: 'error', error: e}`. -/
def errorResult (e : XMLParseError) : PullResult :=
  { name := "error", error := some e }

/-- The generator loop of `PullParser.parse` (`parser.ts` lines 284-305):
the same driver loop, yielding `marshallEvent` of every produced event in
order; a caught `XMLParseError` yields one `{name: 'error', error}` result, a
missing handler propagates as a plain exception. -/
def pullResults (tbl : List (String × XMLParseHandler)) :
    XMLParseContext → XMLPosition → List Char → List PullResult × RunOutcome
  | _, _, [] => ([], .done)
  | cx, pos, c :: rest =>
    match getAssoc tbl cx.state.name with
    | none => ([], .thrown ("Handler for " ++ cx.state.name ++ " not found"))
    | some h =>
      let pos' := nextPosition pos c
      match h cx pos' c with
      | .error e => ([errorResult e], .caught e)
      | .ok (cx', evs) =>
        let (res, o) := pullResults tbl cx' pos' rest
        (evs.map marshallEvent ++ res, o)

/-! ## Helper lemmas about the handler table and the driver -/

/-- The table the constructor builds resolves every state to its handler. -/
theorem getAssoc_defaultHandlers (st : ParseState) :
    getAssoc defaultHandlers st.name = some (handlerFor st) := by
  cases st <;> rfl

/-- Every registered handler is a no-op on a dead context: the spec's
dead-Context rule, pushed down into each modelled handler by `deadGuard`. -/
theorem handlerFor_dead (st : ParseState) (cx : XMLParseContext)
    (pos : XMLPosition) (c : Char) (h : cx.errored = true) :
    handlerFor st cx pos c = .ok (cx, []) := by
  cases st <;>
    simp [handlerFor, handleBeforeDocument, handleGeneralStuff, handleFoundLT,
      handleProcInst, handleProcInstEnding, handleSgmlDecl, handleCdata,
      handleCdataEnding, handleCdataEnding2, handleComment, handleCommentEnding,
      handleCommentEnding2, handleDoctype, handleStartTag, handleStartTagStuff,
      handleEmptyElementTag, handleAttributeName, handleAttributeNameSawWhite,
      handleAttributeEqual, handleAttributeValueStart, handleAttributeValueEnd,
      handleEndTag, handleEndTagSawWhite, handleAfterDocument, deadGuard, h]

/-- On a dead context the driver loop consumes the whole chunk without
producing events, without changing the context and without an exception. -/
theorem runChars_dead (l : List Char) : ∀ (cx : XMLParseContext) (pos : XMLPosition),
    cx.errored = true →
    (runChars defaultHandlers cx pos l).events = [] ∧
    (runChars defaultHandlers cx pos l).cx = cx ∧
    (runChars defaultHandlers cx pos l).outcome = .done ∧
    (runChars defaultHandlers cx pos l).rest = [] := by
  induction l with
  | nil => intro cx pos h; simp [runChars]
  | cons c rest ih =>
    intro cx pos h
    have hg := getAssoc_defaultHandlers cx.state
    have hd := handlerFor_dead cx.state cx (nextPosition pos c) c h
    simp [runChars, hg, hd, ih cx (nextPosition pos c) h]

/-- Continuation of a finished run on further characters. -/
def seqRun (tbl : List (String × XMLParseHandler)) (r : RunResult)
    (l2 : List Char) : RunResult :=
  match r.outcome with
  | .done =>
    let r2 := runChars tbl r.cx r.pos l2
    ⟨r.events ++ r2.events, r2.cx, r2.pos, r2.rest, r2.outcome⟩
  | _ => { r with rest := r.rest ++ l2 }

/-- Splitting the character stream: running the driver over a concatenation
equals running it over the first part and continuing over the second. -/
theorem runChars_append (tbl : List (String × XMLParseHandler))
    (l1 l2 : List Char) : ∀ (cx : XMLParseContext) (pos : XMLPosition),
    runChars tbl cx pos (l1 ++ l2) = seqRun tbl (runChars tbl cx pos l1) l2 := by
  induction l1 with
  | nil => intro cx pos; simp [runChars, seqRun]
  | cons c l1 ih =>
    intro cx pos
    simp only [List.cons_append, runChars]
    cases hg : getAssoc tbl cx.state.name with
    | none => simp [seqRun, runChars, hg]
    | some h =>
      cases hr : h cx (nextPosition pos c) c with
      | error e => simp [seqRun, runChars, hg, hr]
      | ok p =>
        cases p with
        | mk cx' evs =>
          cases ho : (runChars tbl cx' (nextPosition pos c) l1).outcome <;>
            simp [seqRun, runChars, hg, hr, ih, ho, List.append_assoc]

/-- No event of the list is an `error` notification. -/
def noErrorEvents : List XMLParseEvent → Bool
  | [] => true
  | ev :: rest => !(isErrorEvent ev) && noErrorEvents rest

theorem noErrorEvents_append (l1 l2 : List XMLParseEvent) :
    noErrorEvents (l1 ++ l2) = (noErrorEvents l1 && noErrorEvents l2) := by
  induction l1 with
  | nil => simp [noErrorEvents]
  | cons ev rest ih => simp [noErrorEvents, ih, Bool.and_assoc]

theorem noErrorEvents_map_startmap (l : List (String × String)) :
    noErrorEvents (l.map fun b => XMLParseEvent.start_prefix_mapping b.1 b.2) = true := by
  induction l with
  | nil => rfl
  | cons b rest ih => simp [noErrorEvents, isErrorEvent, ih]

theorem noErrorEvents_map_endmap (l : List (String × String)) :
    noErrorEvents (l.map fun b => XMLParseEvent.end_prefix_mapping b.1 b.2) = true := by
  induction l with
  | nil => rfl
  | cons b rest ih => simp [noErrorEvents, isErrorEvent, ih]

theorem noErrorEvents_reverse (l : List XMLParseEvent) :
    noErrorEvents l.reverse = noErrorEvents l := by
  induction l with
  | nil => rfl
  | cons ev rest ih =>
      simp [noErrorEvents, List.reverse_cons, noErrorEvents_append, ih,
        Bool.and_comm]

/-- `flushText` emits no error notification. -/
theorem flushText_clean (cx : XMLParseContext) (pos : XMLPosition)
    (cx' : XMLParseContext) (evs : List XMLParseEvent)
    (h : flushText cx pos = .ok (cx', evs)) : noErrorEvents evs = true := by
  simp only [flushText] at h
  split at h
  · cases h; rfl
  · split at h
    · cases h
    · cases h; simp [noErrorEvents, isErrorEvent]

/-- `finishStartTag` emits no error notification. -/
theorem finishStartTag_clean (cx : XMLParseContext) (pos : XMLPosition)
    (sc : Bool) (cx' : XMLParseContext) (evs : List XMLParseEvent)
    (h : finishStartTag cx pos sc = .ok (cx', evs)) : noErrorEvents evs = true := by
  simp only [finishStartTag] at h
  split at h
  · cases h
  · split at h
    · cases h
    · split at h
      · split at h <;>
          (cases h;
           simp [noErrorEvents_append, noErrorEvents, isErrorEvent,
             noErrorEvents_map_startmap, noErrorEvents_map_endmap,
             noErrorEvents_reverse, List.map_reverse])
      · cases h
        simp [noErrorEvents_append, noErrorEvents, isErrorEvent,
          noErrorEvents_map_startmap]

/-- `finishEndTag` emits no error notification. -/
theorem finishEndTag_clean (cx : XMLParseContext) (pos : XMLPosition)
    (cx' : XMLParseContext) (evs : List XMLParseEvent)
    (h : finishEndTag cx pos = .ok (cx', evs)) : noErrorEvents evs = true := by
  simp only [finishEndTag] at h
  split at h
  · cases h
  · split at h
    · split at h <;>
        (cases h;
         simp [noErrorEvents_append, noErrorEvents, isErrorEvent,
           noErrorEvents_map_endmap, noErrorEvents_reverse, List.map_reverse])
    · cases h

/-- No registered handler ever emits an `error` notification itself:
structural failures are raised as `XMLParseError`s, never returned as
events (error events come only from the driver's `catch`). -/
theorem handlerFor_clean (st : ParseState) (cx : XMLParseContext)
    (pos : XMLPosition) (c : Char) (r : XMLParseContext × List XMLParseEvent)
    (h : handlerFor st cx pos c = .ok r) : noErrorEvents r.2 = true := by
  cases hd : cx.errored with
  | true =>
    rw [handlerFor_dead st cx pos c hd] at h
    cases h; rfl
  | false =>
    cases st <;>
      simp only [handlerFor, handleBeforeDocument, handleGeneralStuff,
        handleFoundLT, handleProcInst, handleProcInstEnding, handleSgmlDecl,
        handleCdata, handleCdataEnding, handleCdataEnding2, handleComment,
        handleCommentEnding, handleCommentEnding2, handleDoctype,
        handleStartTag, handleStartTagStuff, handleEmptyElementTag,
        handleAttributeName, handleAttributeNameSawWhite, handleAttributeEqual,
        handleAttributeValueStart, handleAttributeValueEnd, handleEndTag,
        handleEndTagSawWhite, handleAfterDocument, deadGuard, hd,
        Bool.false_eq_true, if_false] at h
    case BEFORE_DOCUMENT =>
      split_ifs at h <;> (cases h; simp [noErrorEvents, isErrorEvent])
    case GENERAL_STUFF =>
      split_ifs at h
      · split at h
        · cases h
        · rename_i cx' evs heq
          cases h
          exact flushText_clean cx pos cx' evs heq
      · cases h; rfl
    case FOUND_LT =>
      split_ifs at h <;> (cases h; simp [noErrorEvents, isErrorEvent])
    case PROC_INST =>
      split_ifs at h <;> (cases h; simp [noErrorEvents, isErrorEvent])
    case PROC_INST_ENDING =>
      split_ifs at h <;> (cases h; simp [noErrorEvents, isErrorEvent])
    case SGML_DECL =>
      split_ifs at h <;> (cases h; simp [noErrorEvents, isErrorEvent])
    case CDATA =>
      split_ifs at h <;> (cases h; simp [noErrorEvents, isErrorEvent])
    case CDATA_ENDING =>
      split_ifs at h <;> (cases h; simp [noErrorEvents, isErrorEvent])
    case CDATA_ENDING_2 =>
      split_ifs at h <;> (cases h; simp [noErrorEvents, isErrorEvent])
    case COMMENT =>
      split_ifs at h <;> (cases h; simp [noErrorEvents, isErrorEvent])
    case COMMENT_ENDING =>
      split_ifs at h <;> (cases h; simp [noErrorEvents, isErrorEvent])
    case COMMENT_ENDING_2 =>
      split_ifs at h <;> (cases h; simp [noErrorEvents, isErrorEvent])
    case DOCTYPE =>
      split_ifs at h <;> (cases h; simp [noErrorEvents, isErrorEvent])
    case START_TAG =>
      split_ifs at h
      · exact finishStartTag_clean cx pos false r.1 r.2 h
      · cases h; rfl
      · cases h; rfl
      · cases h; rfl
    case START_TAG_STUFF =>
      split_ifs at h
      · cases h; rfl
      · exact finishStartTag_clean cx pos false r.1 r.2 h
      · cases h; rfl
      · cases h; rfl
    case EMPTY_ELEMENT_TAG =>
      split_ifs at h
      · exact finishStartTag_clean cx pos true r.1 r.2 h
    case ATTRIBUTE_NAME =>
      split_ifs at h <;> (cases h; rfl)
    case ATTRIBUTE_NAME_SAW_WHITE =>
      split_ifs at h <;> (cases h; rfl)
    case ATTRIBUTE_EQUAL =>
      split_ifs at h <;> (cases h; rfl)
    case ATTRIBUTE_VALUE_START =>
      split at h
      · split at h
        · cases h
        · split at h
          · cases h
          · cases h; rfl
      · cases h; rfl
    case ATTRIBUTE_VALUE_END =>
      split_ifs at h
      · cases h; rfl
      · cases h; rfl
      · exact finishStartTag_clean cx pos false r.1 r.2 h
    case END_TAG =>
      split_ifs at h
      · exact finishEndTag_clean cx pos r.1 r.2 h
      · cases h; rfl
      · cases h; rfl
    case END_TAG_SAW_WHITE =>
      split_ifs at h
      · exact finishEndTag_clean cx pos r.1 r.2 h
      · cases h; rfl
    case AFTER_DOCUMENT =>
      split_ifs at h
      cases h; rfl

/-- Handler events of a whole run are free of error notifications. -/
theorem runChars_clean (l : List Char) :
    ∀ (cx : XMLParseContext) (pos : XMLPosition),
    noErrorEvents (runChars defaultHandlers cx pos l).events = true := by
  induction l with
  | nil => intro cx pos; rfl
  | cons c rest ih =>
    intro cx pos
    have hg := getAssoc_defaultHandlers cx.state
    simp only [runChars, hg]
    cases hr : handlerFor cx.state cx (nextPosition pos c) c with
    | error e => rfl
    | ok p =>
      cases p with
      | mk cx' evs =>
        simp only [noErrorEvents_append]
        have h1 := handlerFor_clean cx.state cx (nextPosition pos c) c (cx', evs) hr
        have h2 := ih cx' (nextPosition pos c)
        simp_all

/-- With the constructor's table no run ever ends in a propagated
exception: the missing-handler branch is unreachable. -/
theorem runChars_not_thrown (l : List Char) :
    ∀ (cx : XMLParseContext) (pos : XMLPosition) (m : String),
    (runChars defaultHandlers cx pos l).outcome ≠ .thrown m := by
  induction l with
  | nil => intro cx pos m; simp [runChars]
  | cons c rest ih =>
    intro cx pos m
    have hg := getAssoc_defaultHandlers cx.state
    simp only [runChars, hg]
    cases hr : handlerFor cx.state cx (nextPosition pos c) c with
    | error e => simp
    | ok p => cases p with
      | mk cx' evs => simpa using ih cx' (nextPosition pos c) m

/-- A run that caught a parse error leaves the context marked dead. -/
theorem runChars_caught (tbl : List (String × XMLParseHandler)) (l : List Char) :
    ∀ (cx : XMLParseContext) (pos : XMLPosition) (e : XMLParseError),
    (runChars tbl cx pos l).outcome = .caught e →
    (runChars tbl cx pos l).cx.errored = true := by
  induction l with
  | nil => intro cx pos e h; simp [runChars] at h
  | cons c rest ih =>
    intro cx pos e
    cases hg : getAssoc tbl cx.state.name with
    | none => simp [runChars, hg]
    | some f =>
      cases hr : f cx (nextPosition pos c) c with
      | error e2 => simp [runChars, hg, hr]
      | ok p =>
        cases p with
        | mk cx' evs =>
          simpa [runChars, hg, hr] using ih cx' (nextPosition pos c) e

/-- Pull results correspond one-for-one to the driver's events: marshalled
handler events in order, then one error result when a parse error was caught;
the loop outcome also agrees. -/
theorem pullResults_eq (tbl : List (String × XMLParseHandler)) (l : List Char) :
    ∀ (cx : XMLParseContext) (pos : XMLPosition),
    (pullResults tbl cx pos l).1 =
      (runChars tbl cx pos l).events.map marshallEvent ++
        (match (runChars tbl cx pos l).outcome with
         | .caught e => [errorResult e]
         | _ => []) ∧
    (pullResults tbl cx pos l).2 = (runChars tbl cx pos l).outcome := by
  induction l with
  | nil => intro cx pos; simp [pullResults, runChars]
  | cons c rest ih =>
    intro cx pos
    cases hg : getAssoc tbl cx.state.name with
    | none => simp [pullResults, runChars, hg]
    | some f =>
      cases hr : f cx (nextPosition pos c) c with
      | error e => simp [pullResults, runChars, hg, hr]
      | ok p =>
        cases p with
        | mk cx' evs =>
          obtain ⟨ih1, ih2⟩ := ih cx' (nextPosition pos c)
          simp [pullResults, runChars, hg, hr, ih1, ih2, List.append_assoc]

/-- The fused dispatch loop of `SAXParser.run` invokes, in order, exactly the
listeners of every dispatched event (handler events in emission order, then
the caught error notification). -/
theorem runDispatch_eq {L : Type} (tbl : List (String × XMLParseHandler))
    (m : List (String × List L)) (l : List Char) :
    ∀ (cx : XMLParseContext) (pos : XMLPosition),
    (runDispatch tbl m cx pos l).1 =
      (saxEvents tbl cx pos l).flatMap (fireListeners m) ∧
    (runDispatch tbl m cx pos l).2 = (runChars tbl cx pos l).outcome := by
  induction l with
  | nil => intro cx pos; simp [runDispatch, runChars, saxEvents, saxEventsOf]
  | cons c rest ih =>
    intro cx pos
    cases hg : getAssoc tbl cx.state.name with
    | none => simp [runDispatch, runChars, saxEvents, saxEventsOf, hg]
    | some f =>
      cases hr : f cx (nextPosition pos c) c with
      | error e => simp [runDispatch, runChars, saxEvents, saxEventsOf, hg, hr, fireListeners]
      | ok p =>
        cases p with
        | mk cx' evs =>
          obtain ⟨ih1, ih2⟩ := ih cx' (nextPosition pos c)
          cases ho : (runChars tbl cx' (nextPosition pos c) rest).outcome <;>
            (rw [ho] at ih2;
             simp [runDispatch, runChars, saxEvents, saxEventsOf, hg, hr, ho,
               ih1, ih2, List.flatMap_append, List.append_assoc])

/-- Assigning a chunk leaves everything needed by the driver: the fresh
cursor makes the whole chunk the remaining input. -/
theorem remaining_setChunk (s : ParserBase) (ch : List Char) :
    (s.setChunk ch).remaining = ch := by
  simp [ParserBase.setChunk, ParserBase.remaining]

/-- One `run` after one chunk assignment, componentwise. -/
theorem runP_setChunk (tbl : List (String × XMLParseHandler)) (s : ParserBase)
    (l : List Char) :
    runP tbl (s.setChunk l) =
      (saxEvents tbl s.cx s.position l,
       { cx := (runChars tbl s.cx s.position l).cx,
         chunk := l,
         index := -1 + ((l.length - (runChars tbl s.cx s.position l).rest.length : Nat) : Int),
         position := (runChars tbl s.cx s.position l).pos },
       (runChars tbl s.cx s.position l).outcome) := by
  simp [runP, saxEvents, ParserBase.setChunk, ParserBase.remaining]

/-- Feeding any chunk sequence to a dead parser produces no events and no
exception. -/
theorem feedChunksP_dead (chunks : List (List Char)) :
    ∀ (s : ParserBase), s.cx.errored = true →
    (feedChunksP defaultHandlers s chunks).1 = [] ∧
    (feedChunksP defaultHandlers s chunks).2.2 = none := by
  induction chunks with
  | nil => intro s h; simp [feedChunksP]
  | cons ch rest ih =>
    intro s h
    obtain ⟨he, hc, ho, -⟩ := runChars_dead ch s.cx s.position h
    simp only [feedChunksP, runP_setChunk, ho, he, saxEvents, saxEventsOf]
    have := ih { cx := (runChars defaultHandlers s.cx s.position ch).cx,
                 chunk := ch,
                 index := -1 + ((ch.length -
                   (runChars defaultHandlers s.cx s.position ch).rest.length : Nat) : Int),
                 position := (runChars defaultHandlers s.cx s.position ch).pos }
              (by rw [hc]; exact h)
    simpa using this

/-! ## Claim theorems -/

/-- C1: for every document text and every partition of it into an ordered
list of chunks, assigning the chunks one after another via the chunk setter
and running the driver loop to exhaustion after each produces exactly the same
ordered sequence of parse events as feeding the whole document as one single
chunk. -/
theorem c1_chunk_invariance (s : ParserBase) (chunks : List (List Char)) :
    (feedChunksP defaultHandlers s chunks).1 =
      (runP defaultHandlers (s.setChunk chunks.flatten)).1 := by
  induction chunks generalizing s with
  | nil => simp [feedChunksP, runP_setChunk, saxEvents, saxEventsOf, runChars]
  | cons ch rest ih =>
    simp only [List.flatten_cons, feedChunksP, runP_setChunk]
    cases ho : (runChars defaultHandlers s.cx s.position ch).outcome with
    | thrown m => exact absurd ho (runChars_not_thrown ch s.cx s.position m)
    | done =>
      cases ho2 : (runChars defaultHandlers
          (runChars defaultHandlers s.cx s.position ch).cx
          (runChars defaultHandlers s.cx s.position ch).pos rest.flatten).outcome <;>
        simp [ho, ho2, ih, runP_setChunk, saxEvents, saxEventsOf, seqRun,
          runChars_append, List.append_assoc]
    | caught e =>
      have herr : (runChars defaultHandlers s.cx s.position ch).cx.errored = true :=
        runChars_caught defaultHandlers ch s.cx s.position e ho
      have hd := feedChunksP_dead rest
        { cx := (runChars defaultHandlers s.cx s.position ch).cx,
          chunk := ch,
          index := -1 + ((ch.length -
            (runChars defaultHandlers s.cx s.position ch).rest.length : Nat) : Int),
          position := (runChars defaultHandlers s.cx s.position ch).pos } herr
      simp [ho, hd.1, saxEvents, saxEventsOf, seqRun, runChars_append]

/-- C3: once `errored` is set on the context, feeding any further chunks to
the same parser instance produces no events at all and raises no exception. -/
theorem c3_dead_context_stops (s : ParserBase) (chunks : List (List Char))
    (h : s.cx.errored = true) :
    (feedChunksP defaultHandlers s chunks).1 = [] ∧
    (feedChunksP defaultHandlers s chunks).2.2 = none :=
  feedChunksP_dead chunks s h

/-- Witness for C3 at a concrete dead parser and concrete chunks. -/
theorem c3_dead_context_stops_witness :
    (feedChunksP defaultHandlers
      { cx := { errored := true }, chunk := [], index := -1,
        position := { line := 1, column := 0 } } [['<', 'a', '>'], ['x']]).1 = [] ∧
    (feedChunksP defaultHandlers
      { cx := { errored := true }, chunk := [], index := -1,
        position := { line := 1, column := 0 } } [['<', 'a', '>'], ['x']]).2.2 = none :=
  c3_dead_context_stops _ _ rfl

/-- The marshalled result keeps the event's name. -/
theorem marshallEvent_name (ev : XMLParseEvent) :
    (marshallEvent ev).name = ev.name := by
  cases ev <;> rfl

/-- Only the `error` event is named `error`. -/
theorem name_ne_error_of_clean (ev : XMLParseEvent)
    (h : isErrorEvent ev = false) : ev.name ≠ "error" := by
  cases ev <;> simp_all [isErrorEvent, XMLParseEvent.name]

/-- A clean event list contains nothing the error filter keeps. -/
theorem filter_isError_eq_nil (evs : List XMLParseEvent)
    (h : noErrorEvents evs = true) : evs.filter isErrorEvent = [] := by
  induction evs with
  | nil => rfl
  | cons ev rest ih =>
    simp only [noErrorEvents, Bool.and_eq_true, Bool.not_eq_true'] at h
    simp [List.filter_cons, h.1, ih h.2]

/-- Marshalling a clean event list yields no result named `error`. -/
theorem filter_errorName_marshall_eq_nil (evs : List XMLParseEvent)
    (h : noErrorEvents evs = true) :
    (evs.map marshallEvent).filter (fun r => r.name = "error") = [] := by
  induction evs with
  | nil => rfl
  | cons ev rest ih =>
    simp only [noErrorEvents, Bool.and_eq_true, Bool.not_eq_true'] at h
    simp [List.filter_cons, marshallEvent_name, name_ne_error_of_clean ev h.1,
      ih h.2]

/-- C2: whenever a handler raises an `XMLParseError`, the parser produces
exactly one consumer-visible error notification — the `SAXParser` dispatches
exactly one `error` event, carrying the raised error, as the last dispatched
event, and the `PullParser` yields exactly one result named `error`, carrying
the raised error, as the last yielded result — so no raised structural error
is ever silently dropped. -/
theorem c2_exactly_one_error_notification (cx : XMLParseContext)
    (pos : XMLPosition) (l : List Char) (e : XMLParseError)
    (h : (runChars defaultHandlers cx pos l).outcome = .caught e) :
    ((saxEvents defaultHandlers cx pos l).filter isErrorEvent).length = 1 ∧
    (saxEvents defaultHandlers cx pos l).getLast? =
      some (XMLParseEvent.error e) ∧
    ((pullResults defaultHandlers cx pos l).1.filter
       (fun r => r.name = "error")).length = 1 ∧
    (pullResults defaultHandlers cx pos l).1.getLast? = some (errorResult e) := by
  have hclean := runChars_clean l cx pos
  have hsax : saxEvents defaultHandlers cx pos l =
      (runChars defaultHandlers cx pos l).events ++ [XMLParseEvent.error e] := by
    simp [saxEvents, saxEventsOf, h]
  have hpull := (pullResults_eq defaultHandlers l cx pos).1
  rw [h] at hpull
  refine ⟨?_, ?_, ?_, ?_⟩
  · rw [hsax]
    simp [List.filter_append, filter_isError_eq_nil _ hclean, isErrorEvent]
  · rw [hsax]; exact List.getLast?_concat _
  · rw [hpull]
    simp [List.filter_append, filter_errorName_marshall_eq_nil _ hclean,
      errorResult]
  · rw [hpull]; exact List.getLast?_concat _

/-- Witness for C2: the document `"< "` raises a structural error at line 1,
column 2, and both consumers surface it exactly once. -/
theorem c2_exactly_one_error_notification_witness :
    ((saxEvents defaultHandlers {} { line := 1, column := 0 }
        ['<', ' ']).filter isErrorEvent).length = 1 ∧
    (saxEvents defaultHandlers {} { line := 1, column := 0 } ['<', ' ']).getLast? =
      some (XMLParseEvent.error
        ⟨"unencoded <", { line := 1, column := 2 }⟩) ∧
    ((pullResults defaultHandlers {} { line := 1, column := 0 }
        ['<', ' ']).1.filter (fun r => r.name = "error")).length = 1 ∧
    (pullResults defaultHandlers {} { line := 1, column := 0 } ['<', ' ']).1.getLast? =
      some (errorResult ⟨"unencoded <", { line := 1, column := 2 }⟩) :=
  c2_exactly_one_error_notification {} { line := 1, column := 0 } ['<', ' ']
    ⟨"unencoded <", { line := 1, column := 2 }⟩ (by decide)

/-- C4: for every input the pull consumer yields exactly one `PullResult` per
parse event — the marshalled handler events in the same order, plus the
`error` result when a parse error was caught — with the same names and the
same count as the events the `SAXParser` dispatches for that input, and with
the payload fields of each result determined by its name via `marshallEvent`. -/
theorem c4_pull_matches_push (tbl : List (String × XMLParseHandler))
    (cx : XMLParseContext) (pos : XMLPosition) (l : List Char) :
    (pullResults tbl cx pos l).1 =
      (runChars tbl cx pos l).events.map marshallEvent ++
        (match (runChars tbl cx pos l).outcome with
         | .caught e => [errorResult e]
         | _ => []) ∧
    (pullResults tbl cx pos l).1.map PullResult.name =
      (saxEvents tbl cx pos l).map XMLParseEvent.name ∧
    (pullResults tbl cx pos l).1.length = (saxEvents tbl cx pos l).length := by
  obtain ⟨h1, -⟩ := pullResults_eq tbl l cx pos
  refine ⟨h1, ?_, ?_⟩ <;>
    (rw [h1];
     cases ho : (runChars tbl cx pos l).outcome <;>
       simp [saxEvents, saxEventsOf, ho, marshallEvent_name, errorResult,
         XMLParseEvent.name])

/-- C6: assigning a new chunk via the chunk setter mutates only the chunk
buffer and the chunk-local cursor (reset to `-1`); the whole parse context —
FSM state, accumulation buffers, element and namespace stacks — and the
position are left unchanged. -/
theorem c6_chunk_setter_frame (s : ParserBase) (ch : List Char) :
    (s.setChunk ch).chunk = ch ∧
    (s.setChunk ch).index = -1 ∧
    (s.setChunk ch).cx = s.cx ∧
    (s.setChunk ch).position = s.position ∧
    (s.setChunk ch).cx.state = s.cx.state ∧
    (s.setChunk ch).cx.textBuf = s.cx.textBuf ∧
    (s.setChunk ch).cx.nameBuf = s.cx.nameBuf ∧
    (s.setChunk ch).cx.valueBuf = s.cx.valueBuf ∧
    (s.setChunk ch).cx.elementStack = s.cx.elementStack ∧
    (s.setChunk ch).cx.namespaceList = s.cx.namespaceList ∧
    (s.setChunk ch).position.line = s.position.line ∧
    (s.setChunk ch).position.column = s.position.column :=
  ⟨rfl, rfl, rfl, rfl, rfl, rfl, rfl, rfl, rfl, rfl, rfl, rfl⟩

/-- One position update keeps the line at least 1 and the column at least 0. -/
theorem nextPosition_valid (pos : XMLPosition) (c : Char)
    (h1 : 1 ≤ pos.line) (h2 : 0 ≤ pos.column) :
    1 ≤ (nextPosition pos c).line ∧ 0 ≤ (nextPosition pos c).column := by
  unfold nextPosition
  split <;> constructor <;> simp <;> omega

/-- Every run keeps the position valid. -/
theorem runChars_pos_valid (tbl : List (String × XMLParseHandler))
    (l : List Char) : ∀ (cx : XMLParseContext) (pos : XMLPosition),
    1 ≤ pos.line → 0 ≤ pos.column →
    1 ≤ (runChars tbl cx pos l).pos.line ∧
    0 ≤ (runChars tbl cx pos l).pos.column := by
  induction l with
  | nil => intro cx pos h1 h2; simpa [runChars] using ⟨h1, h2⟩
  | cons c rest ih =>
    intro cx pos h1 h2
    obtain ⟨h1', h2'⟩ := nextPosition_valid pos c h1 h2
    cases hg : getAssoc tbl cx.state.name with
    | none => simpa [runChars, hg] using ⟨h1, h2⟩
    | some f =>
      cases hr : f cx (nextPosition pos c) c with
      | error e => simpa [runChars, hg, hr] using ⟨h1', h2'⟩
      | ok p =>
        cases p with
        | mk cx' evs =>
          simpa [runChars, hg, hr] using ih cx' (nextPosition pos c) h1' h2'

/-- C5: starting from `{line: 1, column: 0}`, each `readNext` consumes exactly
one character (cursor advanced by one, chunk and context untouched) and
updates the position exactly once before the character reaches the state
handler — the driver dispatches every handler at the already-updated
position — with a newline incrementing the line and resetting the column and
any other character incrementing the column; consequently the line stays at
least 1 and the column at least 0 throughout every run. -/
theorem c5_readNext_position (s : ParserBase) (c : Char) (rest : List Char)
    (hidx : -1 ≤ s.index) (hrem : s.remaining = c :: rest) :
    s.readNext.1 = some c ∧
    s.readNext.2.index = s.index + 1 ∧
    s.readNext.2.remaining = rest ∧
    s.readNext.2.chunk = s.chunk ∧
    s.readNext.2.cx = s.cx ∧
    s.readNext.2.position = nextPosition s.position c ∧
    (c = '\n' → nextPosition s.position c =
      { line := s.position.line + 1, column := 0 }) ∧
    (c ≠ '\n' → nextPosition s.position c =
      { line := s.position.line, column := s.position.column + 1 }) ∧
    ({} : ParserBase).position = { line := 1, column := 0 } ∧
    (∀ (tbl : List (String × XMLParseHandler)) (f : XMLParseHandler)
       (cx : XMLParseContext) (pos : XMLPosition) (l : List Char),
      getAssoc tbl cx.state.name = some f →
      runChars tbl cx pos (c :: l) =
        match f cx (nextPosition pos c) c with
        | .error e => ⟨[], { cx with errored := true }, nextPosition pos c, l, .caught e⟩
        | .ok (cx', evs) =>
            ⟨evs ++ (runChars tbl cx' (nextPosition pos c) l).events,
             (runChars tbl cx' (nextPosition pos c) l).cx,
             (runChars tbl cx' (nextPosition pos c) l).pos,
             (runChars tbl cx' (nextPosition pos c) l).rest,
             (runChars tbl cx' (nextPosition pos c) l).outcome⟩) ∧
    (∀ (pos : XMLPosition) (d : Char), 1 ≤ pos.line → 0 ≤ pos.column →
      1 ≤ (nextPosition pos d).line ∧ 0 ≤ (nextPosition pos d).column) ∧
    (∀ (tbl : List (String × XMLParseHandler)) (cx : XMLParseContext)
       (pos : XMLPosition) (l : List Char), 1 ≤ pos.line → 0 ≤ pos.column →
      1 ≤ (runChars tbl cx pos l).pos.line ∧
      0 ≤ (runChars tbl cx pos l).pos.column) := by
  simp only [ParserBase.remaining] at hrem
  have hn : s.chunk[(s.index + 1).toNat]? = some c := by
    have h0 := List.getElem?_drop s.chunk (s.index + 1).toNat 0
    rw [hrem] at h0
    simpa using h0.symm
  have h2 : ((s.index + 1) + 1).toNat = (s.index + 1).toNat + 1 := by omega
  have htail : s.chunk.drop ((s.index + 1).toNat + 1) = rest := by
    rw [← List.tail_drop, hrem]
    rfl
  refine ⟨?_, rfl, ?_, rfl, rfl, ?_, ?_, ?_, rfl, ?_, nextPosition_valid,
    fun tbl cx pos l => runChars_pos_valid tbl l cx pos⟩
  · simp [ParserBase.readNext, hn]
  · simp [ParserBase.readNext, ParserBase.remaining, h2, htail]
  · simp [ParserBase.readNext, hn]
  · intro h; simp [nextPosition, h]
  · intro h; simp [nextPosition, h]
  · intro tbl f cx pos l hg
    cases hf : f cx (nextPosition pos c) c with
    | error e => simp [runChars, hg, hf]
    | ok p =>
      cases p with
      | mk cx' evs => simp [runChars, hg, hf]

/-- Witness for C5 at a concrete parser about to consume a newline. -/
theorem c5_readNext_position_witness :
    (ParserBase.mk {} ['a', '\n'] 0 { line := 1, column := 1 }).readNext.1 =
      some '\n' ∧
    (ParserBase.mk {} ['a', '\n'] 0 { line := 1, column := 1 }).readNext.2.index = 1 ∧
    (ParserBase.mk {} ['a', '\n'] 0 { line := 1, column := 1 }).readNext.2.position =
      { line := 2, column := 0 } := by
  obtain ⟨h1, h2, -, -, -, h6, h7, -⟩ :=
    c5_readNext_position (ParserBase.mk {} ['a', '\n'] 0 { line := 1, column := 1 })
      '\n' [] (by decide) rfl
  refine ⟨h1, h2, ?_⟩
  rw [h6, h7 rfl]
  rfl

/-- Assigning a key stores its value. -/
theorem getAssoc_setAssoc_self {α : Type} (m : List (String × α)) (k : String)
    (v : α) : getAssoc (setAssoc m k v) k = some v := by
  induction m with
  | nil => simp [setAssoc, getAssoc]
  | cons e rest ih =>
    obtain ⟨k', v'⟩ := e
    by_cases h : k' = k
    · simp [setAssoc, getAssoc, h]
    · simpa [setAssoc, getAssoc, List.find?_cons, h] using ih

/-- Assigning a key leaves every other key's value unchanged. -/
theorem getAssoc_setAssoc_other {α : Type} (m : List (String × α)) (k : String)
    (v : α) (n : String) (h : n ≠ k) :
    getAssoc (setAssoc m k v) n = getAssoc m n := by
  have h' : ¬(k = n) := fun he => h he.symm
  induction m with
  | nil => simp [setAssoc, getAssoc, h']
  | cons e rest ih =>
    obtain ⟨k', v'⟩ := e
    by_cases hk : k' = k
    · subst hk
      simp [setAssoc, getAssoc, List.find?_cons, h']
    · by_cases hn : k' = n
      · simp [setAssoc, getAssoc, List.find?_cons, hk, hn, h]
      · simpa [setAssoc, getAssoc, List.find?_cons, hk, hn] using ih

/-- C7: listeners registered via `on` are kept per event name in an ordered
list — a new subscription is appended, other names are untouched — and one
`write`/`run` dispatches every produced event synchronously in emission order,
each to its listeners in registration order, before returning. -/
theorem c7_listener_registration_and_dispatch (L : Type)
    (m : List (String × List L)) (name : String) (l : L) :
    getListeners (saxOn m name l) name = getListeners m name ++ [l] ∧
    (∀ n, n ≠ name → getListeners (saxOn m name l) n = getListeners m n) ∧
    (∀ ev, fireListeners m ev = (getListeners m ev.name).map (fun x => (x, ev))) ∧
    (∀ (tbl : List (String × XMLParseHandler)) (cx : XMLParseContext)
       (pos : XMLPosition) (chars : List Char),
      (runDispatch tbl m cx pos chars).1 =
        (saxEvents tbl cx pos chars).flatMap (fireListeners m)) := by
  refine ⟨?_, ?_, fun ev => rfl,
    fun tbl cx pos chars => (runDispatch_eq tbl m chars cx pos).1⟩
  · simp [saxOn, getListeners, getAssoc_setAssoc_self]
  · intro n hn
    simp [saxOn, getListeners, getAssoc_setAssoc_other _ _ _ _ hn]

/-- Witness for C7 with natural-number listener tags on a concrete parse. -/
theorem c7_listener_registration_and_dispatch_witness :
    getListeners (saxOn ([] : List (String × List Nat)) "text" 7) "text" =
      getListeners ([] : List (String × List Nat)) "text" ++ [7] ∧
    getListeners (saxOn ([] : List (String × List Nat)) "text" 7) "comment" =
      getListeners ([] : List (String × List Nat)) "comment" ∧
    (runDispatch defaultHandlers (saxOn ([] : List (String × List Nat)) "text" 7)
        {} { line := 1, column := 0 } ['<', 'a', '>']).1 =
      (saxEvents defaultHandlers {} { line := 1, column := 0 }
        ['<', 'a', '>']).flatMap
          (fireListeners (saxOn ([] : List (String × List Nat)) "text" 7)) := by
  obtain ⟨h1, h2, -, -⟩ :=
    c7_listener_registration_and_dispatch Nat [] "text" 7
  obtain ⟨-, -, -, h4⟩ :=
    c7_listener_registration_and_dispatch Nat (saxOn [] "text" 7) "text" 7
  exact ⟨h1, h2 "comment" (by decide),
    h4 defaultHandlers {} { line := 1, column := 0 } ['<', 'a', '>']⟩

/-- C8 counterexample: the `ParserBase` constructor registers exactly 24
transition functions, not 25 as claimed. -/
theorem c8_handler_count_is_24_not_25 :
    defaultHandlers.length = 24 ∧ defaultHandlers.length ≠ 25 := by
  constructor
  · rfl
  · decide

/-- C8 (amended): the state handler table registers exactly 24 transition
functions, one per FSM state with no duplicate key, so that every state the
context can be in resolves to a handler and the missing-handler branch of the
driver is unreachable. -/
theorem c8_handler_table_total :
    defaultHandlers.length = 24 ∧
    (defaultHandlers.map Prod.fst).Nodup ∧
    (∀ st : ParseState, getAssoc defaultHandlers st.name = some (handlerFor st)) ∧
    (∀ (cx : XMLParseContext) (pos : XMLPosition) (l : List Char) (m : String),
      (runChars defaultHandlers cx pos l).outcome ≠ .thrown m) :=
  ⟨rfl, by decide, getAssoc_defaultHandlers,
   fun cx pos l m => runChars_not_thrown l cx pos m⟩

/-- Witness for C8 (amended) at a concrete state and run. -/
theorem c8_handler_table_total_witness :
    getAssoc defaultHandlers ParseState.BEFORE_DOCUMENT.name =
      some (handlerFor ParseState.BEFORE_DOCUMENT) ∧
    (runChars defaultHandlers {} { line := 1, column := 0 } ['<']).outcome ≠
      .thrown "Handler for BEFORE_DOCUMENT not found" :=
  ⟨c8_handler_table_total.2.2.1 ParseState.BEFORE_DOCUMENT,
   c8_handler_table_total.2.2.2 {} { line := 1, column := 0 } ['<']
     "Handler for BEFORE_DOCUMENT not found"⟩

/-- C9: every `write` decodes its byte chunk with a freshly constructed
decoder, independently of all previous chunks — the text a call parses is a
pure function of that call's bytes — a byte-order mark is resolved once per
call, and a multi-byte character split across two `write` calls is not
reassembled but becomes replacement characters. -/
theorem c9_fresh_decoder_per_write :
    (∀ (tbl : List (String × XMLParseHandler)) (s : ParserBase)
       (bytesList : List (List Nat)),
      feedWrites tbl s bytesList = feedChunksP tbl s (bytesList.map decodeChunk)) ∧
    (∀ (tbl : List (String × XMLParseHandler)) (s : ParserBase) (bytes : List Nat),
      saxWrite tbl s bytes = runP tbl (s.setChunk (decodeChunk bytes))) ∧
    decodeChunk [0xEF, 0xBB, 0xBF, 0x61] = ['a'] ∧
    decodeChunk [0xEF, 0xBB, 0xBF, 0xEF, 0xBB, 0xBF, 0x61] =
      [Char.ofNat 0xFEFF, 'a'] ∧
    [[0xEF, 0xBB, 0xBF, 0x61], [0xEF, 0xBB, 0xBF, 0x62]].map decodeChunk =
      [['a'], ['b']] ∧
    decodeChunk [0xC3, 0xA9] = [Char.ofNat 0xE9] ∧
    decodeChunk [0xC3] = [replChar] ∧
    decodeChunk [0xA9] = [replChar] ∧
    decodeChunk [0xC3] ++ decodeChunk [0xA9] ≠ decodeChunk [0xC3, 0xA9] := by
  refine ⟨?_, fun tbl s bytes => rfl, by decide, by decide, by decide,
    by decide, by decide, by decide, by decide⟩
  intro tbl s bytesList
  induction bytesList generalizing s with
  | nil => rfl
  | cons bytes rest ih =>
    simp only [feedWrites, saxWrite, List.map_cons, feedChunksP]
    rcases hrp : runP tbl (s.setChunk (decodeChunk bytes)) with ⟨evs, s', o⟩
    cases o <;> simp [ih]

/-- Witness for C9 at the split two-byte character 0xC3 0xA9. -/
theorem c9_fresh_decoder_per_write_witness :
    decodeChunk [0xC3, 0xA9] = [Char.ofNat 0xE9] ∧
    decodeChunk [0xC3] ++ decodeChunk [0xA9] ≠ decodeChunk [0xC3, 0xA9] :=
  ⟨c9_fresh_decoder_per_write.2.2.2.2.2.1,
   c9_fresh_decoder_per_write.2.2.2.2.2.2.2.2⟩

/-- C10: a non-`XMLParseError` exception — in particular the plain `Error`
thrown when no handler is registered for the current state — propagates
unchanged out of the driver loop of `SAXParser.run`/`write` and of
`PullParser.parse`, and is never converted into an `error` event or an error
`PullResult`. -/
theorem c10_nonparse_exception_propagates
    (tbl : List (String × XMLParseHandler)) (cx : XMLParseContext)
    (pos : XMLPosition) (l : List Char) (msg : String) :
    ((runChars tbl cx pos l).outcome = .thrown msg →
      saxEvents tbl cx pos l = (runChars tbl cx pos l).events ∧
      (pullResults tbl cx pos l).2 = .thrown msg ∧
      (pullResults tbl cx pos l).1 =
        (runChars tbl cx pos l).events.map marshallEvent) ∧
    (∀ s : ParserBase,
      (runP tbl s).2.2 = (runChars tbl s.cx s.position s.remaining).outcome) ∧
    (getAssoc tbl cx.state.name = none → l ≠ [] →
      (runChars tbl cx pos l).outcome =
        .thrown ("Handler for " ++ cx.state.name ++ " not found") ∧
      (runChars tbl cx pos l).events = [] ∧
      (pullResults tbl cx pos l).1 = []) := by
  obtain ⟨hp1, hp2⟩ := pullResults_eq tbl l cx pos
  refine ⟨?_, fun s => rfl, ?_⟩
  · intro h
    refine ⟨by simp [saxEvents, saxEventsOf, h], by rw [hp2, h], ?_⟩
    rw [hp1, h]
    simp
  · intro hg hl
    cases l with
    | nil => exact absurd rfl hl
    | cons c rest =>
      refine ⟨?_, ?_, ?_⟩ <;> simp [runChars, pullResults, hg]

/-- Witness for C10: with an empty handler table the very first character
triggers the missing-handler exception, which propagates with no error
notification. -/
theorem c10_nonparse_exception_propagates_witness :
    saxEvents [] {} { line := 1, column := 0 } ['x'] =
      (runChars [] {} { line := 1, column := 0 } ['x']).events ∧
    (pullResults [] {} { line := 1, column := 0 } ['x']).2 =
      .thrown "Handler for BEFORE_DOCUMENT not found" ∧
    (runChars [] {} { line := 1, column := 0 } ['x']).outcome =
      .thrown "Handler for BEFORE_DOCUMENT not found" ∧
    (runChars [] {} { line := 1, column := 0 } ['x']).events = [] ∧
    (pullResults [] {} { line := 1, column := 0 } ['x']).1 = [] := by
  obtain ⟨h1, -, h3⟩ :=
    c10_nonparse_exception_propagates [] {} { line := 1, column := 0 } ['x']
      "Handler for BEFORE_DOCUMENT not found"
  obtain ⟨h31, h32, h33⟩ := h3 rfl (by simp)
  obtain ⟨h11, h12, -⟩ := h1 h31
  exact ⟨h11, h12, h31, h32, h33⟩

end Xmlp
